import Mathlib

/-!
Verification of the process-isolation / remote-invocation subsystem of
`src/simulation.py` (classes `SimulationConsumerAbstract`, `SimulationConsumer`,
`SimulationProducer`, `SimulationPool`).

The Python code is shallowly embedded: the three sub-channels of a worker
(commands, results, faults) become Lean lists used as FIFO queues, the
`multiprocessing` semaphore becomes a natural number, events become booleans,
and each Python method becomes a Lean function on an explicit state record.
Raising an exception is modelled by an explicit outcome constructor.
Line numbers in doc comments refer to `src/simulation.py`.
-/

/-- Opaque return values carried on the results sub-channel. -/
abbrev Value := Nat

/-- The payload of `SimulationConsumerFailed` (lines 18-24): the consumer's
original exception and its formatted traceback, sent as a pair on the
exception pipe (line 164) and received at line 434. -/
structure Fault where
  exc : String
  trace : String
deriving DecidableEq, Repr

/-- Outcome of executing one command against the engine inside the worker
(the call `command[0](self, *command[1], **command[2])` at line 158): either
a return value or a raised exception with its traceback. -/
inductive EngineResult where
  | ok (v : Value)
  | raises (f : Fault)
deriving DecidableEq, Repr

/-- A consumer method as routed through the command pipe.  `engineOp` stands
for any engine-facing method; its `retv` flag is the `_communicate_return_value`
metadata set by the `communicate_return_value` decorator (lines 26-40).
`signal_command_pipe_empty` (lines 171-174) and `good_bye` (lines 176-177) are
the two protocol-level methods used by the close handshake; both have
`_communicate_return_value = False`. -/
inductive ConsumerMethod where
  | engineOp (retv : Bool) (run : EngineResult)
  | signal_command_pipe_empty
  | good_bye
deriving DecidableEq, Repr

/-- The `_communicate_return_value` metadata of a method (lines 26-40):
`engineOp`'s own flag; the protocol methods are not decorated, so the class
decorator `default_dont_communicate_return` leaves them at `False`. -/
def ConsumerMethod.communicate_return_value : ConsumerMethod → Bool
  | .engineOp b _ => b
  | .signal_command_pipe_empty => false
  | .good_bye => false

/-! ## Controller-side dispatcher state (`SimulationProducer`, lines 402-476)

The fields a dispatcher observes: its `_closed` flag, whether the consumer
process is alive (`self._consumer.is_alive()`), the contents of the fault
sub-channel (`exception_pipe`), the `must_quit` event and whether the consumer
process has been joined. -/

structure SimulationProducer where
  _closed : Bool
  consumer_alive : Bool
  exception_pipe : List Fault
  must_quit : Bool
  joined : Bool
deriving DecidableEq, Repr

/-- Outcome of `_check_consumer_alive` (lines 428-436): the worker is alive and
the call returns `True`; or the worker is dead, a recorded fault is received
from the exception pipe and `SimulationConsumerFailed` is raised; or the worker
is dead with no recorded fault, in which case the blocking
`exception_pipe_out.recv()` at line 434 never returns (the controller itself
still holds the pipe's write end, so no EOF is ever seen). -/
inductive CheckResult where
  | alive
  | raised (f : Fault)
  | blocked
deriving DecidableEq, Repr

/-- Whether a `_check_consumer_alive` outcome is a raised exception. -/
def CheckResult.isRaise : CheckResult → Bool
  | .raised _ => true
  | .alive => false
  | .blocked => false

/-- `_check_consumer_alive` (lines 428-436).  If the consumer is alive it
returns normally.  Otherwise it joins the process (twice, lines 430 and 432),
sets `self._closed = True` (line 433), and then performs a blocking `recv` on
the exception pipe (line 434): with a recorded fault it raises
`SimulationConsumerFailed(exc, traceback)` (line 435); with no recorded fault
the `recv` blocks forever. -/
def SimulationProducer._check_consumer_alive (p : SimulationProducer) :
    SimulationProducer × CheckResult :=
  if p.consumer_alive then (p, .alive)
  else
    let p1 : SimulationProducer :=
      { p with joined := true, _closed := true }
    match p1.exception_pipe with
    | f :: rest => ({ p1 with exception_pipe := rest }, .raised f)
    | [] => (p1, .blocked)

/-- Outcome of one `_send_command` capacity-acquire loop (lines 438-442) once
the command is already on the pipe: the semaphore is acquired, or the liveness
check raised, or the call is still blocked polling. -/
inductive SendPollResult where
  | acquired
  | raised (f : Fault)
  | blocked
deriving DecidableEq, Repr

/-- The acquire loop of `_send_command` (lines 440-442), after the command was
already placed on the pipe at line 439: a free semaphore slot is taken;
otherwise `_check_consumer_alive` runs, either raising (dead worker with a
recorded fault), blocking on the fault recv (dead worker, no fault), or
polling again (alive worker, modelled as `blocked` until a slot frees). -/
def SimulationProducer._send_command_acquire (p : SimulationProducer)
    (sem : Nat) : SendPollResult :=
  if 0 < sem then .acquired
  else
    match (p._check_consumer_alive).2 with
    | .alive => .blocked
    | .raised f => .raised f
    | .blocked => .blocked

/-- Outcome of `_wait_for_answer` (lines 444-450). -/
inductive WaitPollResult where
  | answer (v : Value)
  | raised (f : Fault)
  | blocked
deriving DecidableEq, Repr

/-- `_wait_for_answer` (lines 444-450): poll the results sub-channel; if a
value is available, receive and return it; otherwise run
`_check_consumer_alive` — raising for a dead worker with a recorded fault,
blocking on the fault recv for a dead worker without one, and polling again
(modelled as `blocked`) while the worker is alive with no answer yet. -/
def SimulationProducer._wait_for_answer_poll (p : SimulationProducer)
    (results : List Value) : WaitPollResult :=
  match results with
  | v :: _ => .answer v
  | [] =>
    match (p._check_consumer_alive).2 with
    | .alive => .blocked
    | .raised f => .raised f
    | .blocked => .blocked

/-- The observable steps of `close` (lines 455-469), in execution order:
`_wait_command_pipe_empty` sends the `signal_command_pipe_empty` command
(line 472) and waits on the `command_pipe_empty` event (line 473); then the
`must_quit` event is set (line 461); then the farewell `good_bye` command is
sent (line 463); then the consumer is joined (line 466).  `diagAlreadyClosed`
is the diagnostic print of the already-closed branch (line 469). -/
inductive CloseEvent where
  | sendSignalEmpty
  | waitEmptyFlag
  | setMustQuit
  | sendGoodBye
  | joinConsumer
  | diagAlreadyClosed
deriving DecidableEq, Repr

/-- `close` (lines 455-469).  On a not-yet-closed dispatcher whose consumer is
alive: empty-queue handshake, set `must_quit`, send `good_bye`, mark closed,
join.  On a not-yet-closed dispatcher whose consumer is dead: mark closed and
join only.  On an already-closed dispatcher: the diagnostic print at line 469,
nothing else; the function is total, so no exception is raised on this path. -/
def SimulationProducer.close (p : SimulationProducer) :
    SimulationProducer × List CloseEvent :=
  if p._closed = false then
    if p.consumer_alive then
      ({ p with must_quit := true, _closed := true, joined := true },
       [.sendSignalEmpty, .waitEmptyFlag, .setMustQuit, .sendGoodBye,
        .joinConsumer])
    else
      ({ p with _closed := true, joined := true }, [.joinConsumer])
  else
    (p, [.diagAlreadyClosed])

/-- `__del__` (lines 475-476): finalization simply calls `self.close()`. -/
def SimulationProducer.dunder_del (p : SimulationProducer) :
    SimulationProducer × List CloseEvent :=
  p.close

/-! ## Construction (`SimulationProducer.__init__` lines 404-423,
`SimulationPool.__init__` lines 481-487) -/

/-- The per-worker process-io state built by `SimulationProducer.__init__`:
the in-flight command semaphore is created as `mp.Semaphore(100)` at line 409
with the literal capacity 100; the constructor has parameters
`(scene, gui)` only. -/
structure SimulationProducerInit where
  slot_in_command_queue_capacity : Nat
  scene : String
  gui : Bool
deriving DecidableEq, Repr

/-- `SimulationProducer.__init__(scene, gui)` (lines 404-423): the semaphore
capacity is the literal `100`. -/
def mkSimulationProducer (scene : String) (gui : Bool) : SimulationProducerInit :=
  { slot_in_command_queue_capacity := 100, scene := scene, gui := gui }

/-- The pool state built by `SimulationPool.__init__` (lines 481-487). -/
structure SimulationPoolInit where
  producers : List SimulationProducerInit
deriving DecidableEq, Repr

/-- `SimulationPool.__init__(size, scene, guis)` (lines 481-487): builds
`size` producers, worker `i` getting `gui = (i in guis)`.  There is no
capacity parameter in the signature. -/
def mkSimulationPool (size : Nat) (scene : String) (guis : List Nat) :
    SimulationPoolInit :=
  ⟨(List.range size).map (fun i => mkSimulationProducer scene (guis.contains i))⟩

/-- The capacity clause of the spec, in the spec's own words ("configurable at
pool construction: for every capacity value passed when constructing the pool,
each worker's bounded in-flight counter has that capacity"): for every
capacity `c` some pool construction with at least one worker gives every
worker an in-flight counter of capacity `c`. -/
def capacityConfigurableAtPoolConstruction : Prop :=
  ∀ c : Nat, ∃ (size : Nat) (scene : String) (guis : List Nat),
    0 < size ∧
    ∀ pr ∈ (mkSimulationPool size scene guis).producers,
      pr.slot_in_command_queue_capacity = c

/-! ## Pool fan-out (`SimulationPool`, lines 479-513) -/

/-- An opaque Python value as handled by the pool layer: an atom or a
sequence.  `p2p_convertion_function` (lines 80-98) indexes arguments with
`arg[i]` in distribute mode, so sequence structure is observable there. -/
inductive PyVal where
  | atom (n : Nat)
  | vlist (xs : List PyVal)

instance : Inhabited PyVal := ⟨.atom 0⟩

/-- Python's `arg[i]` as used at lines 87 and 89.  The theorems below only
apply it to sequences long enough for the selection, where it is ordinary
list indexing; an out-of-range index or a non-sequence would raise in Python
and is given the dummy value `atom 0` here. -/
def PyVal.getItem : PyVal → Nat → PyVal
  | .atom _, _ => .atom 0
  | .vlist xs, i => xs.getD i (.atom 0)

/-- A command as enqueued by a producer-side call: positional arguments and
keyword arguments (the method identity is fixed per fan-out call and left
implicit). -/
abbrev PoolCmd := List PyVal × List (String × PyVal)

/-- What the pool observes of one producer: the commands sent on its command
pipe (`_send_command`, line 439) and its results sub-channel contents. -/
structure PoolProducer where
  command_pipe : List PoolCmd
  return_value_pipe : List PyVal

instance : Inhabited PoolProducer := ⟨⟨[], []⟩⟩

/-- A non-blocking producer call `producer.method(*args, blocking=False)`
(`c2p_convertion_function`, lines 43-53, with `blocking=False`): just
`_send_command`, which appends the command to the command pipe (line 439). -/
def PoolProducer.send_command (pr : PoolProducer) (cmd : PoolCmd) : PoolProducer :=
  { pr with command_pipe := pr.command_pipe ++ [cmd] }

/-- `producer._wait_for_answer()` (lines 444-450) as the pool uses it at
line 96: receive the oldest value of the results sub-channel; with no value
available the call blocks (`none`). -/
def PoolProducer.wait_for_answer (pr : PoolProducer) :
    Option (PyVal × PoolProducer) :=
  match pr.return_value_pipe with
  | [] => none
  | v :: rest => some (v, { pr with return_value_pipe := rest })

/-- Replace the element at an index, leaving the list unchanged when the
index is out of range.  Models in-place mutation of the producer object
`self._producers[idx]`. -/
def modifyAt {α : Type} (f : α → α) : Nat → List α → List α
  | _, [] => []
  | 0, a :: as => f a :: as
  | n + 1, a :: as => a :: modifyAt f n as

/-- The pool state (`SimulationPool.__init__`, lines 481-487):
`_active_producers_indices` defaults to all workers and
`_distribute_args_mode` to `False`. -/
structure SimulationPool where
  producers : List PoolProducer
  _active_producers_indices : List Nat
  _distribute_args_mode : Bool

/-- The send loop of `p2p_convertion_function` in distribute mode
(lines 83-90): for the `pos`-th selected worker, send
`(*[arg[pos] for arg in args], **{key: value[pos] ...})`, non-blocking. -/
def distributeSends (args : List PyVal) (kwargs : List (String × PyVal)) :
    Nat → List Nat → List PoolProducer → List PoolProducer
  | _, [], ps => ps
  | pos, idx :: rest, ps =>
      distributeSends args kwargs (pos + 1) rest
        (modifyAt
          (fun pr => pr.send_command
            (args.map (fun a => a.getItem pos),
             kwargs.map (fun kv => (kv.1, kv.2.getItem pos))))
          idx ps)

/-- The send loop of `p2p_convertion_function` in broadcast mode
(lines 91-93): every selected worker gets the same `(args, kwargs)`,
non-blocking. -/
def broadcastSends (args : List PyVal) (kwargs : List (String × PyVal)) :
    List Nat → List PoolProducer → List PoolProducer
  | [], ps => ps
  | idx :: rest, ps =>
      broadcastSends args kwargs rest
        (modifyAt (fun pr => pr.send_command (args, kwargs)) idx ps)

/-- The wait loop of `p2p_convertion_function` (lines 94-97):
`[producer._wait_for_answer() for producer in self._active_producers]`, in
selection order.  `none` models a wait that blocks because some selected
worker has no answer available. -/
def waitAll : List Nat → List PoolProducer → Option (List PoolProducer × List PyVal)
  | [], ps => some (ps, [])
  | idx :: rest, ps =>
      match (ps.getD idx default).wait_for_answer with
      | none => none
      | some (v, pr1) =>
          match waitAll rest (modifyAt (fun _ => pr1) idx ps) with
          | none => none
          | some (ps1, vs) => some (ps1, v :: vs)

/-- Result of one pool fan-out call. -/
inductive PoolCallResult where
  | retList (vs : List PyVal)
  | noret
  | blocked

/-- `p2p_convertion_function` (lines 80-98): send non-blocking to every
selected worker in selection order (distributing or broadcasting arguments
according to `_distribute_args_mode`); only afterwards, when the method's
metadata is returns-a-value (`retv`), wait for one answer per selected worker
in the same selection order and return the list of answers. -/
def SimulationPool.p2p_call (pool : SimulationPool) (retv : Bool)
    (args : List PyVal) (kwargs : List (String × PyVal)) :
    SimulationPool × PoolCallResult :=
  let idxs := pool._active_producers_indices
  let ps1 :=
    if pool._distribute_args_mode then
      distributeSends args kwargs 0 idxs pool.producers
    else
      broadcastSends args kwargs idxs pool.producers
  if retv then
    match waitAll idxs ps1 with
    | some (ps2, vs) => ({ pool with producers := ps2 }, .retList vs)
    | none => ({ pool with producers := ps1 }, .blocked)
  else
    ({ pool with producers := ps1 }, .noret)

/-- The `specific` context manager (lines 489-495), with the body's outcome
made explicit: `body` returns the pool state it mutated and `some e` when it
raised `e`.  Because the generator has no `try/finally`, an exception thrown
into it at the `yield` propagates and the restore statement at line 495 never
runs: the saved indices are restored only on the normal-exit path. -/
def SimulationPool.specific_scope {E : Type} (pool : SimulationPool)
    (list_or_int : List Nat ⊕ Nat)
    (body : SimulationPool → SimulationPool × Option E) :
    SimulationPool × Option E :=
  let saved := pool._active_producers_indices
  let indices := match list_or_int with
    | .inl l => l
    | .inr i => [i]
  let r := body { pool with _active_producers_indices := indices }
  match r.2 with
  | none => ({ r.1 with _active_producers_indices := saved }, none)
  | some e => (r.1, some e)

/-- The `distribute_args` context manager (lines 497-501), with the body's
outcome explicit as in `SimulationPool.specific_scope`: the flag is set to
`True` on entry and reset at line 501 only on the normal-exit path — an
exception in the body skips the reset. -/
def SimulationPool.distribute_args_scope {E : Type} (pool : SimulationPool)
    (body : SimulationPool → SimulationPool × Option E) :
    SimulationPool × Option E :=
  let r := body { pool with _distribute_args_mode := true }
  match r.2 with
  | none => ({ r.1 with _distribute_args_mode := false }, none)
  | some e => (r.1, some e)

/-! ## Worker runtime (`SimulationConsumerAbstract`, lines 116-177)

The worker-side view of one dispatcher/worker pair: the pending commands of
the command pipe, the results and fault sub-channels, the semaphore value,
the `must_quit` and `command_pipe_empty` events, which pipe ends the worker
has closed, and a log of the commands it completed (the engine side effect
order). -/

structure ConsumerIo where
  command_pipe : List ConsumerMethod
  return_value_pipe : List Value
  exception_pipe : List Fault
  slot_in_command_queue : Nat
  must_quit : Bool
  command_pipe_empty_pulses : Nat
  command_pipe_out_closed : Bool
  return_value_pipe_in_closed : Bool
  exception_pipe_in_closed : Bool
  engine_shutdown : Bool
  executed : List ConsumerMethod
deriving DecidableEq, Repr

/-- `_consume_command` (lines 153-166): receive one command from the command
pipe (blocking recv, line 156 — the empty-pipe case below is unreachable from
`_main_loop_go`, which only calls this on a non-empty pipe), release one
semaphore slot (line 157), execute the command (line 158), send the return
value if the method's metadata says so (lines 159-160); any exception is
caught, sent once on the exception pipe (line 164), and makes the call return
`False`, which quits the main loop (line 163). -/
def SimulationConsumer._consume_command (io : ConsumerIo) : ConsumerIo × Bool :=
  match io.command_pipe with
  | [] => (io, true)
  | cmd :: rest =>
    let io1 : ConsumerIo :=
      { io with command_pipe := rest,
                slot_in_command_queue := io.slot_in_command_queue + 1 }
    match cmd with
    | .engineOp retv r =>
      match r with
      | .ok v =>
        let io2 : ConsumerIo := { io1 with executed := io1.executed ++ [cmd] }
        if retv then
          ({ io2 with return_value_pipe := io2.return_value_pipe ++ [v] }, true)
        else
          (io2, true)
      | .raises f =>
        ({ io1 with exception_pipe := io1.exception_pipe ++ [f] }, false)
    | .signal_command_pipe_empty =>
      ({ io1 with executed := io1.executed ++ [cmd],
                  command_pipe_empty_pulses := io1.command_pipe_empty_pulses + 1 },
       true)
    | .good_bye =>
      ({ io1 with executed := io1.executed ++ [cmd] }, true)

/-- The `while success and not must_quit` loop of `_main_loop` (lines
146-149), run over the commands currently on the pipe.  The fuel argument is
the number of pending commands, each iteration consuming one.  The boolean
tells whether the loop exited (quit observed, or a command failed); `false`
means the worker is still alive, blocked in `recv` waiting for the next
command. -/
def SimulationConsumer._main_loop_go : Nat → ConsumerIo → ConsumerIo × Bool
  | 0, io => (io, false)
  | fuel + 1, io =>
    if io.must_quit then (io, true)
    else
      match io.command_pipe with
      | [] => (io, false)
      | _ :: _ =>
        let r := SimulationConsumer._consume_command io
        if r.2 then SimulationConsumer._main_loop_go fuel r.1 else (r.1, true)

/-- `_close_pipes` (lines 141-144): close the command and results pipe ends;
the exception pipe is deliberately left open (the commented-out line 144). -/
def SimulationConsumer._close_pipes (io : ConsumerIo) : ConsumerIo :=
  { io with command_pipe_out_closed := true, return_value_pipe_in_closed := true }

/-- `_main_loop` (lines 146-151): run the loop over the pending commands;
when it exits, shut the engine down (line 150) and close the command/results
pipes (line 151).  When the loop is still blocked waiting for commands,
nothing is shut down. -/
def SimulationConsumer._main_loop (io : ConsumerIo) : ConsumerIo × Bool :=
  let r := SimulationConsumer._main_loop_go io.command_pipe.length io
  if r.2 then
    (SimulationConsumer._close_pipes { r.1 with engine_shutdown := true }, true)
  else r

/-- The worker state after a dispatcher sent the commands `cs` non-blocking
and nothing else happened: the commands sit on the command pipe in send
order (line 439 appends to the pipe in call order), all other channels are
empty, the semaphore holds the remaining slots, no event is set. -/
def initConsumerIo (cs : List ConsumerMethod) : ConsumerIo :=
  { command_pipe := cs
    return_value_pipe := []
    exception_pipe := []
    slot_in_command_queue := 100 - cs.length
    must_quit := false
    command_pipe_empty_pulses := 0
    command_pipe_out_closed := false
    return_value_pipe_in_closed := false
    exception_pipe_in_closed := false
    engine_shutdown := false
    executed := [] }

/-- A returns-a-value command whose execution succeeds with value `v`. -/
def retCmd (v : Value) : ConsumerMethod :=
  .engineOp true (.ok v)

/-- A successfully executing command with metadata flag `p.1` and value
`p.2`. -/
def okCmd (p : Bool × Value) : ConsumerMethod :=
  .engineOp p.1 (.ok p.2)

/-- The values the worker sends on the results sub-channel while executing
the commands `ps.map okCmd`: one value per command whose metadata flag is
set, in execution order. -/
def retValues (ps : List (Bool × Value)) : List Value :=
  (ps.filter (fun p => p.1)).map (fun p => p.2)

/-- `_wait_for_answer` (lines 444-450) on a live worker, seen from the
results sub-channel: receive the oldest value, or block when none is
available yet. -/
def SimulationProducer._wait_for_answer_queue :
    List Value → Option (Value × List Value)
  | [] => none
  | v :: rest => some (v, rest)

/-- `n` successive `_wait_for_answer` calls on a live worker: the received
values in order, and the rest of the results sub-channel; `none` when some
call blocks. -/
def SimulationProducer.wait_for_answer_times :
    Nat → List Value → Option (List Value × List Value)
  | 0, q => some ([], q)
  | n + 1, q =>
    match SimulationProducer._wait_for_answer_queue q with
    | none => none
    | some (v, q1) =>
      match SimulationProducer.wait_for_answer_times n q1 with
      | none => none
      | some (vs, q2) => some (v :: vs, q2)

/-- The oldest value on a producer's results sub-channel — what its next
`_wait_for_answer` returns (the theorems below only use it when the channel
is non-empty). -/
def headResult (ps : List PoolProducer) (i : Nat) : PyVal :=
  ((ps.getD i default).return_value_pipe).headD (PyVal.atom 0)

/-! ## In-flight flow control (`_send_command` lines 438-442,
`_consume_command` lines 156-157)

A small-step view of one dispatcher/worker pair restricted to the command
pipe and the `slot_in_command_queue` semaphore.  `_send_command` first puts
the command on the pipe (line 439) and only then acquires a semaphore slot,
polling in a loop (lines 440-442); the worker releases one slot right after
receiving a command (lines 156-157).  `acquiring = true` means the
controller is inside `_send_command`, between the pipe send and the
semaphore acquire. -/

structure SendState where
  command_pipe : List Nat
  slot_in_command_queue : Nat
  acquiring : Bool
deriving DecidableEq, Repr

/-- The interleaved steps of the controller's `_send_command` and the
worker's `_consume_command`:
`send_enqueue` is line 439 (`command_pipe_in.send(...)`), which the
controller can start whenever it is not already inside a send;
`send_acquire` is a successful `semaphore.acquire` at line 441, possible
only when a slot is free; `consume_recv` is the worker's
`recv` + `semaphore.release` (lines 156-157), possible whenever a command is
pending. -/
inductive SendStep : SendState → SendState → Prop
  | send_enqueue (c : Nat) (s : SendState) (h : s.acquiring = false) :
      SendStep s ⟨s.command_pipe ++ [c], s.slot_in_command_queue, true⟩
  | send_acquire (s : SendState) (h : s.acquiring = true)
      (hs : 0 < s.slot_in_command_queue) :
      SendStep s ⟨s.command_pipe, s.slot_in_command_queue - 1, false⟩
  | consume_recv (s : SendState) (c : Nat) (rest : List Nat)
      (h : s.command_pipe = c :: rest) :
      SendStep s ⟨rest, s.slot_in_command_queue + 1, s.acquiring⟩

/-- The initial channel state of a fresh dispatcher with capacity `C`: empty
pipe, all `C` semaphore slots free (`mp.Semaphore(100)` at line 409, with
`C = 100` in the source), no send in progress. -/
def sendInit (C : Nat) : SendState :=
  ⟨[], C, false⟩

/-- The channel states reachable from a fresh dispatcher of capacity `C`. -/
def SendReach (C : Nat) (s : SendState) : Prop :=
  Relation.ReflTransGen SendStep (sendInit C) s

/-! ## Theorems -/

/-- Claim C3 as stated is false at this concrete input: a worker that exited
without recording a fault.  `_check_consumer_alive` then blocks forever in
`exception_pipe_out.recv()` (line 434) instead of raising an
unexpected-termination condition, so the next send or wait hangs. -/
theorem c3_counterexample :
    (SimulationProducer._check_consumer_alive
        ⟨false, false, [], false, false⟩).2 = CheckResult.blocked ∧
    (SimulationProducer._check_consumer_alive
        ⟨false, false, [], false, false⟩).2.isRaise = false := by
  constructor <;> rfl

/-- Claim C3 (amended): when a liveness check finds the worker process exited,
the dispatcher joins it and marks itself closed; if a fault was recorded it
receives it from the fault sub-channel and raises a structured failure
carrying the worker's original error description and trace; if the worker
exited without recording a fault, the receive on the fault sub-channel blocks
forever (no distinct unexpected-termination condition is raised). -/
theorem c3_death_fault_surfacing (f : Fault) (rest : List Fault)
    (cl mq j : Bool) :
    SimulationProducer._check_consumer_alive ⟨cl, false, f :: rest, mq, j⟩ =
      (⟨true, false, rest, mq, true⟩, CheckResult.raised f) ∧
    SimulationProducer._check_consumer_alive ⟨cl, false, [], mq, j⟩ =
      (⟨true, false, [], mq, true⟩, CheckResult.blocked) := by
  constructor <;> rfl

/-- Claim C5: the scoped contexts do NOT restore prior state on exception
exit.  With prior selection `[0, 1, 2]` and fan-out flag `false`, a
`specific([1])` scope whose body raises leaves the selection narrowed to
`[1]`, and a `distribute_args` scope whose body raises leaves the flag
`true`; the normal-exit paths do restore.  This contradicts the code's
intent (a reversible scope) and the spec, so it is recorded as a code bug. -/
theorem c5_scope_error_leaks_state :
    ((SimulationPool.specific_scope ⟨[⟨[], []⟩], [0, 1, 2], false⟩
        (Sum.inl [1]) (fun p => (p, some 0))).1._active_producers_indices
      = [1]) ∧
    ((SimulationPool.specific_scope ⟨[⟨[], []⟩], [0, 1, 2], false⟩
        (Sum.inl [1]) (fun p => (p, (none : Option Nat)))).1._active_producers_indices
      = [0, 1, 2]) ∧
    ((SimulationPool.distribute_args_scope ⟨[⟨[], []⟩], [0, 1, 2], false⟩
        (fun p => (p, some 0))).1._distribute_args_mode = true) ∧
    ((SimulationPool.distribute_args_scope ⟨[⟨[], []⟩], [0, 1, 2], false⟩
        (fun p => (p, (none : Option Nat)))).1._distribute_args_mode = false) := by
  refine ⟨rfl, rfl, rfl, rfl⟩

/-- Claim C7: on a live, not-yet-closed dispatcher, `close` performs, in
order: the empty-queue handshake (send `signal_command_pipe_empty`, wait for
the empty flag), then sets the quit flag, then sends the `good_bye` farewell
command, then joins the worker; and a second `close` on the resulting closed
dispatcher is a no-op producing only the diagnostic (the function returns
normally, raising nothing). -/
theorem c7_close_order (ep : List Fault) (mq j : Bool) :
    SimulationProducer.close ⟨false, true, ep, mq, j⟩ =
      (⟨true, true, ep, true, true⟩,
       [CloseEvent.sendSignalEmpty, CloseEvent.waitEmptyFlag,
        CloseEvent.setMustQuit, CloseEvent.sendGoodBye,
        CloseEvent.joinConsumer]) ∧
    SimulationProducer.close ⟨true, true, ep, true, true⟩ =
      (⟨true, true, ep, true, true⟩, [CloseEvent.diagAlreadyClosed]) := by
  constructor <;> rfl

/-- Claim C8 as stated is false: the in-flight capacity is not configurable at
pool construction.  `SimulationPool.__init__` takes only `(size, scene,
guis)` and every producer's semaphore is created as `mp.Semaphore(100)`
(line 409), so no construction yields a worker whose capacity is, e.g., 101. -/
theorem c8_counterexample : ¬ capacityConfigurableAtPoolConstruction := by
  intro h
  obtain ⟨size, scene, guis, hpos, hall⟩ := h 101
  have hm : mkSimulationProducer scene (guis.contains 0) ∈
      (mkSimulationPool size scene guis).producers := by
    simp only [mkSimulationPool, List.mem_map]
    exact ⟨0, List.mem_range.mpr hpos, rfl⟩
  have h100 := hall _ hm
  simp [mkSimulationProducer] at h100

/-- Claim C8 (amended): the per-worker in-flight command capacity is the
fixed literal 100; pool construction takes only size, scene and gui indices,
and every worker of every constructed pool has capacity exactly 100. -/
theorem c8_capacity_fixed (scene : String) (gui : Bool) (size : Nat)
    (guis : List Nat) :
    (mkSimulationProducer scene gui).slot_in_command_queue_capacity = 100 ∧
    ((mkSimulationPool size scene guis).producers.map
        (fun pr => pr.slot_in_command_queue_capacity)).all (fun c => c = 100)
      = true := by
  refine ⟨rfl, ?_⟩
  rw [List.all_eq_true]
  intro c hc
  simp only [mkSimulationPool, List.map_map, List.mem_map, List.mem_range,
    Function.comp] at hc
  obtain ⟨i, -, rfl⟩ := hc
  rfl

/-- Claim C9: once a liveness check has detected the worker's death,
`_check_consumer_alive` has set `_closed` (line 433, before the fault recv),
so a later `close` takes the already-closed branch: a diagnostic only, no
handshake, no quit flag, no farewell, no join attempt on the dead process. -/
theorem c9_death_marks_closed (cl : Bool) (ep : List Fault) (mq j : Bool) :
    ((SimulationProducer._check_consumer_alive ⟨cl, false, ep, mq, j⟩).1._closed
      = true) ∧
    SimulationProducer.close
        (SimulationProducer._check_consumer_alive ⟨cl, false, ep, mq, j⟩).1 =
      ((SimulationProducer._check_consumer_alive ⟨cl, false, ep, mq, j⟩).1,
       [CloseEvent.diagAlreadyClosed]) := by
  cases ep <;> exact ⟨rfl, rfl⟩

/-- Claim C10: `__del__` (lines 475-476) invokes `close`, so finalizing a
never-closed dispatcher with a live worker performs the full orderly close
(handshake, quit flag, farewell, join), and finalizing an already-closed
dispatcher only emits the diagnostic. -/
theorem c10_del_calls_close (p : SimulationProducer) (al : Bool)
    (ep : List Fault) (mq j : Bool) :
    SimulationProducer.dunder_del p = SimulationProducer.close p ∧
    (SimulationProducer.dunder_del ⟨false, true, ep, mq, j⟩).2 =
      [CloseEvent.sendSignalEmpty, CloseEvent.waitEmptyFlag,
       CloseEvent.setMustQuit, CloseEvent.sendGoodBye,
       CloseEvent.joinConsumer] ∧
    (SimulationProducer.dunder_del ⟨true, al, ep, mq, j⟩).2 =
      [CloseEvent.diagAlreadyClosed] := by
  exact ⟨rfl, rfl, rfl⟩

/-- Running the loop over successful returns-a-value commands appends their
values to the results sub-channel in command order and executes them all. -/
theorem main_loop_go_all_ret (vs : List Value) :
    ∀ (rp : List Value) (ep : List Fault) (sl pu : Nat) (c1 c2 c3 c4 : Bool)
      (ex : List ConsumerMethod),
    SimulationConsumer._main_loop_go vs.length
        ⟨vs.map retCmd, rp, ep, sl, false, pu, c1, c2, c3, c4, ex⟩ =
      (⟨[], rp ++ vs, ep, sl + vs.length, false, pu, c1, c2, c3, c4,
        ex ++ vs.map retCmd⟩, false) := by
  induction vs with
  | nil =>
    intro rp ep sl pu c1 c2 c3 c4 ex
    simp [SimulationConsumer._main_loop_go]
  | cons v vs ih =>
    intro rp ep sl pu c1 c2 c3 c4 ex
    rw [List.length_cons, List.map_cons]
    rw [SimulationConsumer._main_loop_go]
    simp only [SimulationConsumer._consume_command, retCmd]
    simp only [Bool.false_eq_true, if_false, if_true, ite_true, ite_false]
    rw [ih (rp ++ [v]) ep (sl + 1) pu c1 c2 c3 c4
      (ex ++ [ConsumerMethod.engineOp true (EngineResult.ok v)])]
    simp only [retCmd, List.append_assoc, List.singleton_append,
      ConsumerIo.mk.injEq, Prod.mk.injEq, List.length_cons, and_true, true_and]
    omega

/-- One wait per previously received value returns them all in order. -/
theorem wait_for_answer_times_exact (vs : List Value) :
    SimulationProducer.wait_for_answer_times vs.length vs = some (vs, []) := by
  induction vs with
  | nil => rfl
  | cons v vs ih =>
    rw [List.length_cons]
    show SimulationProducer.wait_for_answer_times (vs.length + 1) (v :: vs) = _
    simp [SimulationProducer.wait_for_answer_times,
      SimulationProducer._wait_for_answer_queue, ih]

/-- Claim C1: after a dispatcher sends the returns-a-value commands carrying
values `vs` non-blocking, without interleaved waits, the worker loop answers
on the results sub-channel in send order, and `vs.length` successive
`_wait_for_answer` calls return exactly those values in the order the
commands were sent — FIFO correlation with no correlation ids. -/
theorem c1_fifo_order (vs : List Value) :
    (SimulationConsumer._main_loop (initConsumerIo (vs.map retCmd))).1.return_value_pipe
      = vs ∧
    SimulationProducer.wait_for_answer_times vs.length
        (SimulationConsumer._main_loop (initConsumerIo (vs.map retCmd))).1.return_value_pipe
      = some (vs, []) := by
  have hlen : (initConsumerIo (vs.map retCmd)).command_pipe.length = vs.length := by
    simp [initConsumerIo]
  have hrun :
      SimulationConsumer._main_loop (initConsumerIo (vs.map retCmd)) =
        (⟨[], [] ++ vs, [], (100 - (vs.map retCmd).length) + vs.length, false, 0,
          false, false, false, false, [] ++ vs.map retCmd⟩, false) := by
    rw [SimulationConsumer._main_loop, hlen]
    rw [show initConsumerIo (vs.map retCmd) =
        ⟨vs.map retCmd, [], [], 100 - (vs.map retCmd).length, false, 0,
          false, false, false, false, []⟩ from rfl]
    rw [main_loop_go_all_ret vs [] [] (100 - (vs.map retCmd).length) 0
      false false false false []]
    rfl
  rw [hrun]
  exact ⟨List.nil_append vs, by rw [List.nil_append]; exact wait_for_answer_times_exact vs⟩

/-- Running the loop over successful commands followed by a command whose
engine call raises `f`: the successful prefix executes, the faulting command
sends exactly one fault and stops the loop, and the commands after it are
left on the pipe unexecuted. -/
theorem main_loop_go_fault (rb : Bool) (f : Fault) (post : List ConsumerMethod) :
    ∀ (ps : List (Bool × Value)) (rp : List Value) (ep : List Fault)
      (sl pu : Nat) (c1 c2 c3 c4 : Bool) (ex : List ConsumerMethod),
    SimulationConsumer._main_loop_go
        (ps.map okCmd ++ ConsumerMethod.engineOp rb (EngineResult.raises f) :: post).length
        ⟨ps.map okCmd ++ ConsumerMethod.engineOp rb (EngineResult.raises f) :: post,
         rp, ep, sl, false, pu, c1, c2, c3, c4, ex⟩ =
      (⟨post, rp ++ retValues ps, ep ++ [f], sl + ps.length + 1, false, pu,
        c1, c2, c3, c4, ex ++ ps.map okCmd⟩, true) := by
  intro ps
  induction ps with
  | nil =>
    intro rp ep sl pu c1 c2 c3 c4 ex
    rw [List.map_nil, List.nil_append, List.length_cons]
    rw [SimulationConsumer._main_loop_go]
    simp [SimulationConsumer._consume_command, retValues]
  | cons p ps ih =>
    intro rp ep sl pu c1 c2 c3 c4 ex
    obtain ⟨b, v⟩ := p
    rw [List.map_cons, List.cons_append, List.length_cons]
    rw [SimulationConsumer._main_loop_go]
    cases b with
    | false =>
      simp only [SimulationConsumer._consume_command, okCmd]
      simp only [Bool.false_eq_true, if_false, if_true, ite_true, ite_false]
      rw [ih rp ep (sl + 1) pu c1 c2 c3 c4
        (ex ++ [ConsumerMethod.engineOp false (EngineResult.ok v)])]
      simp only [retValues, List.filter_cons, Bool.false_eq_true, if_false,
        ite_false, List.append_assoc, List.singleton_append,
        ConsumerIo.mk.injEq, Prod.mk.injEq, List.length_cons, and_true,
        true_and]
      omega
    | true =>
      simp only [SimulationConsumer._consume_command, okCmd]
      simp only [Bool.false_eq_true, if_false, if_true, ite_true, ite_false]
      rw [ih (rp ++ [v]) ep (sl + 1) pu c1 c2 c3 c4
        (ex ++ [ConsumerMethod.engineOp true (EngineResult.ok v)])]
      simp only [retValues, List.filter_cons, if_true, ite_true,
        List.map_cons, List.append_assoc, List.singleton_append,
        ConsumerIo.mk.injEq, Prod.mk.injEq, List.length_cons, and_true,
        true_and]
      omega

/-- Claim C4: if the engine raises `f` while the worker executes command `K`
(here the command after the successful prefix `ps.map okCmd`), then no
command after `K` is executed (the `post` commands stay on the pipe and are
absent from the execution log), exactly one fault is recorded on the fault
sub-channel, the loop terminates with the engine shut down, the command and
results pipe ends closed and the fault sub-channel still open; afterwards a
liveness check, a send and a wait on the dead worker each raise the
worker-death failure `SimulationConsumerFailed` carrying `f`. -/
theorem c4_engine_fault_isolation (ps : List (Bool × Value)) (rb : Bool)
    (f : Fault) (post : List ConsumerMethod) :
    SimulationConsumer._main_loop
        (initConsumerIo
          (ps.map okCmd ++ ConsumerMethod.engineOp rb (EngineResult.raises f) :: post)) =
      (⟨post, retValues ps, [f],
        100 - (ps.map okCmd ++ ConsumerMethod.engineOp rb (EngineResult.raises f) :: post).length
          + ps.length + 1,
        false, 0, true, true, false, true, ps.map okCmd⟩, true) ∧
    (SimulationProducer._check_consumer_alive ⟨false, false, [f], false, false⟩).2
      = CheckResult.raised f ∧
    SimulationProducer._send_command_acquire ⟨false, false, [f], false, false⟩ 0
      = SendPollResult.raised f ∧
    SimulationProducer._wait_for_answer_poll ⟨false, false, [f], false, false⟩ []
      = WaitPollResult.raised f := by
  refine ⟨?_, rfl, rfl, rfl⟩
  rw [SimulationConsumer._main_loop]
  rw [show (initConsumerIo
      (ps.map okCmd ++ ConsumerMethod.engineOp rb (EngineResult.raises f) :: post)).command_pipe.length
    = (ps.map okCmd ++ ConsumerMethod.engineOp rb (EngineResult.raises f) :: post).length from rfl]
  rw [show initConsumerIo
      (ps.map okCmd ++ ConsumerMethod.engineOp rb (EngineResult.raises f) :: post) =
    ⟨ps.map okCmd ++ ConsumerMethod.engineOp rb (EngineResult.raises f) :: post,
      [], [],
      100 - (ps.map okCmd ++ ConsumerMethod.engineOp rb (EngineResult.raises f) :: post).length,
      false, 0, false, false, false, false, []⟩ from rfl]
  rw [main_loop_go_fault rb f post ps [] []
    (100 - (ps.map okCmd ++ ConsumerMethod.engineOp rb (EngineResult.raises f) :: post).length)
    0 false false false false []]
  simp [SimulationConsumer._close_pipes]

/-- Flow-control bookkeeping, one step: each transition preserves the
relation "pending commands plus free semaphore slots equal the capacity,
plus one while a send has enqueued but not yet acquired". -/
theorem send_step_invariant (C : Nat) (a b : SendState) (hstep : SendStep a b)
    (hinv : a.command_pipe.length + a.slot_in_command_queue =
      C + (if a.acquiring = true then 1 else 0)) :
    b.command_pipe.length + b.slot_in_command_queue =
      C + (if b.acquiring = true then 1 else 0) := by
  cases hstep with
  | send_enqueue c t ht =>
    simp only [ht, Bool.false_eq_true, if_false, ite_false] at hinv
    simp only [List.length_append, List.length_singleton, if_true, ite_true]
    omega
  | send_acquire t ht hs =>
    simp only [ht, if_true, ite_true] at hinv
    simp only [Bool.false_eq_true, if_false, ite_false]
    omega
  | consume_recv t c rest hpipe =>
    rw [hpipe] at hinv
    simp only [List.length_cons] at hinv
    rcases hacq : a.acquiring
    all_goals simp only [hacq, Bool.false_eq_true, if_false, ite_false,
      if_true, ite_true] at hinv ⊢
    all_goals omega

/-- Flow-control bookkeeping: in every reachable channel state, pending
commands plus free semaphore slots equal the capacity, plus one while a send
has enqueued its command but not yet acquired a slot. -/
theorem send_flow_invariant (C : Nat) (s : SendState) (h : SendReach C s) :
    s.command_pipe.length + s.slot_in_command_queue =
      C + (if s.acquiring = true then 1 else 0) := by
  induction h with
  | refl => simp [sendInit]
  | tail hab hbc ih => exact send_step_invariant C _ _ hbc ih

/-- Claim C2 as stated is false: with capacity `C = 1`, the dispatcher can
reach the state where two commands sit on the pipe sent-but-not-yet-dequeued
— enqueue the first, acquire the only slot, then enqueue the second; the
second send has already placed its command on the pipe (line 439 runs before
the acquire loop of lines 440-442) and only then blocks. -/
theorem c2_counterexample :
    SendReach 1 ⟨[0, 1], 0, true⟩ ∧
    1 < (SendState.mk [0, 1] 0 true).command_pipe.length :=
  ⟨Relation.ReflTransGen.tail
    (Relation.ReflTransGen.tail
      (Relation.ReflTransGen.tail Relation.ReflTransGen.refl
        (SendStep.send_enqueue 0 _ rfl))
      (SendStep.send_acquire _ rfl (by decide)))
    (SendStep.send_enqueue 1 _ rfl),
   by decide⟩

/-- Claim C2 (amended): in every reachable state the number of
sent-but-not-yet-dequeued commands is at most `C + 1`, and at most `C`
whenever no send is mid-flight; a send that is blocked in the acquire loop
(`acquiring` with no free slot) has already enqueued its command, and the
only step that can change that state is the worker consuming a command
(which shrinks the pipe and frees a slot) — the send completes only after
the worker has consumed, or aborts through the liveness check if the worker
is found dead. -/
theorem c2_inflight_bound (C : Nat) (s : SendState) (h : SendReach C s) :
    s.command_pipe.length ≤ C + 1 ∧
    (s.acquiring = false → s.command_pipe.length ≤ C) ∧
    (s.acquiring = true → s.slot_in_command_queue = 0 →
      ∀ t : SendState, SendStep s t →
        t.command_pipe.length + 1 = s.command_pipe.length ∧
        t.slot_in_command_queue = s.slot_in_command_queue + 1) := by
  have hinv := send_flow_invariant C s h
  refine ⟨?_, ?_, ?_⟩
  · cases hacq : s.acquiring <;>
      simp only [hacq, Bool.false_eq_true, if_false, ite_false, if_true,
        ite_true] at hinv <;> omega
  · intro ha
    simp only [ha, Bool.false_eq_true, if_false, ite_false] at hinv
    omega
  · intro ha h0 t hstep
    cases hstep with
    | send_enqueue c u hu => rw [hu] at ha; cases ha
    | send_acquire u hu hs => omega
    | consume_recv u c rest hpipe =>
      rw [hpipe]
      simp [List.length_cons]

/-- The amended claim C2 instantiated at the reachable blocked state of
`c2_counterexample`'s scenario: capacity 1, two commands on the pipe, no
free slot, a send mid-flight. -/
theorem c2_inflight_bound_witness :
    SendReach 1 ⟨[0, 1], 0, true⟩ ∧
    ((SendState.mk [0, 1] 0 true).command_pipe.length ≤ 1 + 1 ∧
     ((SendState.mk [0, 1] 0 true).acquiring = false →
       (SendState.mk [0, 1] 0 true).command_pipe.length ≤ 1) ∧
     ((SendState.mk [0, 1] 0 true).acquiring = true →
       (SendState.mk [0, 1] 0 true).slot_in_command_queue = 0 →
       ∀ t : SendState, SendStep (SendState.mk [0, 1] 0 true) t →
         t.command_pipe.length + 1 =
           (SendState.mk [0, 1] 0 true).command_pipe.length ∧
         t.slot_in_command_queue =
           (SendState.mk [0, 1] 0 true).slot_in_command_queue + 1)) := by
  have hreach : SendReach 1 ⟨[0, 1], 0, true⟩ :=
    Relation.ReflTransGen.tail
      (Relation.ReflTransGen.tail
        (Relation.ReflTransGen.tail Relation.ReflTransGen.refl
          (SendStep.send_enqueue 0 _ rfl))
        (SendStep.send_acquire _ rfl (by decide)))
      (SendStep.send_enqueue 1 _ rfl)
  exact ⟨hreach, c2_inflight_bound 1 ⟨[0, 1], 0, true⟩ hreach⟩

/-- `modifyAt` keeps the list length. -/
theorem modifyAt_length {α : Type} (f : α → α) :
    ∀ (i : Nat) (l : List α), (modifyAt f i l).length = l.length := by
  intro i l
  induction l generalizing i with
  | nil => cases i <;> rfl
  | cons a l ih =>
    cases i with
    | zero => rfl
    | succ i => simp only [modifyAt, List.length_cons, ih i]

/-- `modifyAt` leaves other positions unchanged. -/
theorem modifyAt_getD_ne {α : Type} [Inhabited α] (f : α → α) :
    ∀ (i j : Nat) (l : List α), i ≠ j →
    (modifyAt f i l).getD j default = l.getD j default := by
  intro i j l
  induction l generalizing i j with
  | nil => intro _; cases i <;> rfl
  | cons a l ih =>
    intro hij
    cases i with
    | zero =>
      cases j with
      | zero => exact absurd rfl hij
      | succ j => rfl
    | succ i =>
      cases j with
      | zero => rfl
      | succ j => exact ih i j (fun h => hij (by rw [h]))

/-- `modifyAt` applies `f` at an in-range position. -/
theorem modifyAt_getD_eq {α : Type} [Inhabited α] (f : α → α) :
    ∀ (j : Nat) (l : List α), j < l.length →
    (modifyAt f j l).getD j default = f (l.getD j default) := by
  intro j l
  induction l generalizing j with
  | nil => intro h; exact absurd h (Nat.not_lt_zero j)
  | cons a l ih =>
    intro hj
    cases j with
    | zero => rfl
    | succ j => exact ih j (Nat.lt_of_succ_lt_succ hj)

/-- The broadcast send phase keeps the number of producers. -/
theorem broadcastSends_length (args : List PyVal)
    (kwargs : List (String × PyVal)) :
    ∀ (idxs : List Nat) (ps : List PoolProducer),
    (broadcastSends args kwargs idxs ps).length = ps.length := by
  intro idxs
  induction idxs with
  | nil => intro ps; rfl
  | cons idx rest ih =>
    intro ps
    rw [broadcastSends, ih, modifyAt_length]

/-- The distributing send phase keeps the number of producers. -/
theorem distributeSends_length (args : List PyVal)
    (kwargs : List (String × PyVal)) :
    ∀ (idxs : List Nat) (pos : Nat) (ps : List PoolProducer),
    (distributeSends args kwargs pos idxs ps).length = ps.length := by
  intro idxs
  induction idxs with
  | nil => intro pos ps; rfl
  | cons idx rest ih =>
    intro pos ps
    rw [distributeSends, ih, modifyAt_length]

/-- The broadcast send phase does not touch unselected producers. -/
theorem broadcastSends_getD_not_mem (args : List PyVal)
    (kwargs : List (String × PyVal)) :
    ∀ (idxs : List Nat) (ps : List PoolProducer) (j : Nat), j ∉ idxs →
    (broadcastSends args kwargs idxs ps).getD j default = ps.getD j default := by
  intro idxs
  induction idxs with
  | nil => intro ps j _; rfl
  | cons idx rest ih =>
    intro ps j hj
    have hj1 : j ∉ rest := fun h => hj (List.mem_cons_of_mem _ h)
    have hj2 : idx ≠ j := fun h => hj (by rw [h]; exact List.mem_cons_self _ _)
    rw [broadcastSends, ih _ j hj1, modifyAt_getD_ne _ _ _ _ hj2]

/-- The broadcast send phase appends exactly one command, the same
`(args, kwargs)`, on each selected producer's command pipe. -/
theorem broadcastSends_getD_mem (args : List PyVal)
    (kwargs : List (String × PyVal)) :
    ∀ (idxs : List Nat) (ps : List PoolProducer) (j : Nat), idxs.Nodup →
      j ∈ idxs → j < ps.length →
    (broadcastSends args kwargs idxs ps).getD j default =
      (ps.getD j default).send_command (args, kwargs) := by
  intro idxs
  induction idxs with
  | nil => intro ps j _ hj _; exact absurd hj (List.not_mem_nil j)
  | cons idx rest ih =>
    intro ps j hnd hj hlt
    rw [broadcastSends]
    rcases List.mem_cons.mp hj with rfl | hj1
    · have hnot : j ∉ rest := (List.nodup_cons.mp hnd).1
      rw [broadcastSends_getD_not_mem args kwargs rest _ j hnot,
        modifyAt_getD_eq _ j ps hlt]
    · have hne : idx ≠ j := fun h => (List.nodup_cons.mp hnd).1 (h ▸ hj1)
      rw [ih _ j (List.nodup_cons.mp hnd).2 hj1
        (by rw [modifyAt_length]; exact hlt),
        modifyAt_getD_ne _ _ _ _ hne]

/-- The distributing send phase does not touch unselected producers. -/
theorem distributeSends_getD_not_mem (args : List PyVal)
    (kwargs : List (String × PyVal)) :
    ∀ (idxs : List Nat) (pos : Nat) (ps : List PoolProducer) (j : Nat),
      j ∉ idxs →
    (distributeSends args kwargs pos idxs ps).getD j default =
      ps.getD j default := by
  intro idxs
  induction idxs with
  | nil => intro pos ps j _; rfl
  | cons idx rest ih =>
    intro pos ps j hj
    have hj1 : j ∉ rest := fun h => hj (List.mem_cons_of_mem _ h)
    have hj2 : idx ≠ j := fun h => hj (by rw [h]; exact List.mem_cons_self _ _)
    rw [distributeSends, ih _ _ j hj1, modifyAt_getD_ne _ _ _ _ hj2]

/-- The distributing send phase appends exactly one command on the `k`-th
selected producer's pipe: the `(pos + k)`-th element of every positional
argument and of every keyword argument value. -/
theorem distributeSends_getD_pos (args : List PyVal)
    (kwargs : List (String × PyVal)) :
    ∀ (idxs : List Nat) (pos : Nat) (ps : List PoolProducer) (k : Nat)
      (hk : k < idxs.length), idxs.Nodup → (∀ i ∈ idxs, i < ps.length) →
    (distributeSends args kwargs pos idxs ps).getD (idxs.get ⟨k, hk⟩) default =
      (ps.getD (idxs.get ⟨k, hk⟩) default).send_command
        (args.map (fun a => a.getItem (pos + k)),
         kwargs.map (fun kv => (kv.1, kv.2.getItem (pos + k)))) := by
  intro idxs
  induction idxs with
  | nil => intro pos ps k hk _ _; exact absurd hk (Nat.not_lt_zero k)
  | cons idx rest ih =>
    intro pos ps k hk hnd hv
    rw [distributeSends]
    cases k with
    | zero =>
      have hnot : idx ∉ rest := (List.nodup_cons.mp hnd).1
      have hlt : idx < ps.length := hv idx (List.mem_cons_self _ _)
      show (distributeSends args kwargs (pos + 1) rest _).getD idx default = _
      rw [distributeSends_getD_not_mem args kwargs rest _ _ idx hnot,
        modifyAt_getD_eq _ idx ps hlt, Nat.add_zero]
      rfl
    | succ k =>
      have hk1 : k < rest.length := Nat.lt_of_succ_lt_succ hk
      have hmem : rest.get ⟨k, hk1⟩ ∈ rest := rest.get_mem _ _
      have hne : idx ≠ rest.get ⟨k, hk1⟩ :=
        fun h => (List.nodup_cons.mp hnd).1 (h ▸ hmem)
      have harith : pos + 1 + k = pos + (k + 1) := by omega
      show (distributeSends args kwargs (pos + 1) rest _).getD
        (rest.get ⟨k, hk1⟩) default = _
      rw [ih (pos + 1) _ k hk1 (List.nodup_cons.mp hnd).2
        (fun i hi => by
          rw [modifyAt_length]
          exact hv i (List.mem_cons_of_mem _ hi)),
        modifyAt_getD_ne _ _ _ _ hne, harith]
      rfl

/-- The wait phase of a fan-out call: with every selected producer holding at
least one answer, it returns the oldest answer of each selected producer, in
selection order, and leaves every command pipe untouched. -/
theorem waitAll_spec :
    ∀ (idxs : List Nat) (ps : List PoolProducer), idxs.Nodup →
    (∀ i ∈ idxs, i < ps.length ∧
      (ps.getD i default).return_value_pipe.isEmpty = false) →
    ∃ ps1 : List PoolProducer,
      waitAll idxs ps = some (ps1, idxs.map (headResult ps)) ∧
      ps1.length = ps.length ∧
      (∀ j : Nat, (ps1.getD j default).command_pipe =
        (ps.getD j default).command_pipe) := by
  intro idxs
  induction idxs with
  | nil => intro ps _ _; exact ⟨ps, rfl, rfl, fun j => rfl⟩
  | cons idx rest ih =>
    intro ps hnd hcond
    obtain ⟨hlt, hne⟩ := hcond idx (List.mem_cons_self _ _)
    rcases hpipe : (ps.getD idx default).return_value_pipe with _ | ⟨v, tail⟩
    · rw [hpipe] at hne; simp [List.isEmpty] at hne
    · have hnot : idx ∉ rest := (List.nodup_cons.mp hnd).1
      obtain ⟨ps2, hw, hlen2, hcmd2⟩ := ih
        (modifyAt (fun _ => { ps.getD idx default with
          return_value_pipe := tail }) idx ps)
        (List.nodup_cons.mp hnd).2
        (fun i hi => by
          have hii : idx ≠ i := fun h => hnot (h ▸ hi)
          rw [modifyAt_length, modifyAt_getD_ne _ _ _ _ hii]
          exact hcond i (List.mem_cons_of_mem _ hi))
      rw [waitAll]
      simp only [PoolProducer.wait_for_answer, hpipe]
      rw [hw]
      refine ⟨ps2, ?_, ?_, ?_⟩
      · have hhead : headResult ps idx = v := by
          show ((ps.getD idx default).return_value_pipe).headD (PyVal.atom 0) = v
          rw [hpipe]
          rfl
        have hmap : rest.map (headResult
            (modifyAt (fun _ => { ps.getD idx default with
              return_value_pipe := tail }) idx ps)) =
            rest.map (headResult ps) := by
          refine List.map_congr_left (fun i hi => ?_)
          have hii : idx ≠ i := fun h => hnot (h ▸ hi)
          simp only [headResult]
          rw [modifyAt_getD_ne _ _ _ _ hii]
        rw [List.map_cons, hhead, hmap]
      · rw [hlen2, modifyAt_length]
      · intro j
        rw [hcmd2 j]
        rcases Nat.decEq idx j with h | h
        · rw [modifyAt_getD_ne _ _ _ _ h]
        · subst h
          rw [modifyAt_getD_eq _ idx ps hlt]

/-- Claim C6: a pool fan-out call of a returns-a-value method over the
selected workers issues one non-blocking send per selected worker in
selection order — the identical `(args, kwargs)` in broadcast mode, and in
argument-distribution mode the `k`-th element of every positional and
keyword argument sequence for the `k`-th selected worker — leaves unselected
workers untouched, and only then waits for the answers in the same selection
order, returning the per-worker results (each worker's oldest pending
answer) in that order. -/
theorem c6_pool_fanout (ps : List PoolProducer) (idxs : List Nat)
    (args : List PyVal) (kwargs : List (String × PyVal))
    (hnd : idxs.Nodup)
    (hok : ∀ i ∈ idxs, i < ps.length ∧
      (ps.getD i default).return_value_pipe.isEmpty = false) :
    (∃ ps2 : List PoolProducer,
      SimulationPool.p2p_call ⟨ps, idxs, false⟩ true args kwargs =
        (⟨ps2, idxs, false⟩, PoolCallResult.retList (idxs.map (headResult ps))) ∧
      (∀ (k : Nat) (hk : k < idxs.length),
        (ps2.getD (idxs.get ⟨k, hk⟩) default).command_pipe =
          (ps.getD (idxs.get ⟨k, hk⟩) default).command_pipe ++ [(args, kwargs)]) ∧
      (∀ j : Nat, j ∉ idxs →
        (ps2.getD j default).command_pipe = (ps.getD j default).command_pipe)) ∧
    (∃ ps2 : List PoolProducer,
      SimulationPool.p2p_call ⟨ps, idxs, true⟩ true args kwargs =
        (⟨ps2, idxs, true⟩, PoolCallResult.retList (idxs.map (headResult ps))) ∧
      (∀ (k : Nat) (hk : k < idxs.length),
        (ps2.getD (idxs.get ⟨k, hk⟩) default).command_pipe =
          (ps.getD (idxs.get ⟨k, hk⟩) default).command_pipe ++
            [(args.map (fun a => a.getItem k),
              kwargs.map (fun kv => (kv.1, kv.2.getItem k)))]) ∧
      (∀ j : Nat, j ∉ idxs →
        (ps2.getD j default).command_pipe = (ps.getD j default).command_pipe)) := by
  have hv : ∀ i ∈ idxs, i < ps.length := fun i hi => (hok i hi).1
  constructor
  · -- broadcast mode
    have hcond1 : ∀ i ∈ idxs,
        i < (broadcastSends args kwargs idxs ps).length ∧
        ((broadcastSends args kwargs idxs ps).getD i
          default).return_value_pipe.isEmpty = false := by
      intro i hi
      obtain ⟨h1, h2⟩ := hok i hi
      refine ⟨by rw [broadcastSends_length]; exact h1, ?_⟩
      rw [broadcastSends_getD_mem args kwargs idxs ps i hnd hi h1]
      exact h2
    obtain ⟨ps2, hw, hlen2, hcmd2⟩ :=
      waitAll_spec idxs (broadcastSends args kwargs idxs ps) hnd hcond1
    have hmapeq : idxs.map (headResult (broadcastSends args kwargs idxs ps)) =
        idxs.map (headResult ps) := by
      refine List.map_congr_left (fun i hi => ?_)
      show (((broadcastSends args kwargs idxs ps).getD i
        default).return_value_pipe).headD (PyVal.atom 0) = _
      rw [broadcastSends_getD_mem args kwargs idxs ps i hnd hi (hv i hi)]
      rfl
    refine ⟨ps2, ?_, ?_, ?_⟩
    · simp only [SimulationPool.p2p_call, Bool.false_eq_true, if_false,
        ite_false, if_true, ite_true]
      rw [hw, hmapeq]
    · intro k hk
      rw [hcmd2 (idxs.get ⟨k, hk⟩),
        broadcastSends_getD_mem args kwargs idxs ps _ hnd (idxs.get_mem _ _)
          (hv _ (idxs.get_mem _ _))]
      rfl
    · intro j hj
      rw [hcmd2 j, broadcastSends_getD_not_mem args kwargs idxs ps j hj]
  · -- distribute mode
    have hDretp : ∀ i ∈ idxs,
        ((distributeSends args kwargs 0 idxs ps).getD i
          default).return_value_pipe =
        (ps.getD i default).return_value_pipe := by
      intro i hi
      obtain ⟨⟨k, hk⟩, rfl⟩ := List.mem_iff_get.mp hi
      rw [distributeSends_getD_pos args kwargs idxs 0 ps k hk hnd hv]
      rfl
    have hcond1 : ∀ i ∈ idxs,
        i < (distributeSends args kwargs 0 idxs ps).length ∧
        ((distributeSends args kwargs 0 idxs ps).getD i
          default).return_value_pipe.isEmpty = false := by
      intro i hi
      obtain ⟨h1, h2⟩ := hok i hi
      refine ⟨by rw [distributeSends_length]; exact h1, ?_⟩
      rw [hDretp i hi]
      exact h2
    obtain ⟨ps2, hw, hlen2, hcmd2⟩ :=
      waitAll_spec idxs (distributeSends args kwargs 0 idxs ps) hnd hcond1
    have hmapeq : idxs.map (headResult (distributeSends args kwargs 0 idxs ps)) =
        idxs.map (headResult ps) := by
      refine List.map_congr_left (fun i hi => ?_)
      show (((distributeSends args kwargs 0 idxs ps).getD i
        default).return_value_pipe).headD (PyVal.atom 0) = _
      rw [hDretp i hi]
      rfl
    refine ⟨ps2, ?_, ?_, ?_⟩
    · simp only [SimulationPool.p2p_call, if_true, ite_true]
      rw [hw, hmapeq]
    · intro k hk
      rw [hcmd2 (idxs.get ⟨k, hk⟩),
        distributeSends_getD_pos args kwargs idxs 0 ps k hk hnd hv,
        Nat.zero_add]
      rfl
    · intro j hj
      rw [hcmd2 j, distributeSends_getD_not_mem args kwargs idxs 0 ps j hj]

/-- Claim C6 instantiated: three workers each holding one pending answer,
selection `[0, 1, 2]`, two positional argument sequences of three elements
each, no keyword arguments. -/
theorem c6_pool_fanout_witness :
    (([0, 1, 2] : List Nat).Nodup ∧
     (∀ i ∈ ([0, 1, 2] : List Nat),
        i < ([⟨[], [PyVal.atom 10]⟩, ⟨[], [PyVal.atom 20]⟩,
              ⟨[], [PyVal.atom 30]⟩] : List PoolProducer).length ∧
        ((([⟨[], [PyVal.atom 10]⟩, ⟨[], [PyVal.atom 20]⟩,
            ⟨[], [PyVal.atom 30]⟩] : List PoolProducer).getD i
          default).return_value_pipe.isEmpty = false))) ∧
    ((∃ ps2 : List PoolProducer,
      SimulationPool.p2p_call
          ⟨[⟨[], [PyVal.atom 10]⟩, ⟨[], [PyVal.atom 20]⟩, ⟨[], [PyVal.atom 30]⟩],
           [0, 1, 2], false⟩ true
          [PyVal.vlist [PyVal.atom 1, PyVal.atom 2, PyVal.atom 3],
           PyVal.vlist [PyVal.atom 4, PyVal.atom 5, PyVal.atom 6]] [] =
        (⟨ps2, [0, 1, 2], false⟩,
         PoolCallResult.retList (([0, 1, 2] : List Nat).map (headResult
           [⟨[], [PyVal.atom 10]⟩, ⟨[], [PyVal.atom 20]⟩, ⟨[], [PyVal.atom 30]⟩]))) ∧
      (∀ (k : Nat) (hk : k < ([0, 1, 2] : List Nat).length),
        (ps2.getD (([0, 1, 2] : List Nat).get ⟨k, hk⟩) default).command_pipe =
          (([⟨[], [PyVal.atom 10]⟩, ⟨[], [PyVal.atom 20]⟩,
             ⟨[], [PyVal.atom 30]⟩] : List PoolProducer).getD
            (([0, 1, 2] : List Nat).get ⟨k, hk⟩) default).command_pipe ++
            [([PyVal.vlist [PyVal.atom 1, PyVal.atom 2, PyVal.atom 3],
               PyVal.vlist [PyVal.atom 4, PyVal.atom 5, PyVal.atom 6]], [])]) ∧
      (∀ j : Nat, j ∉ ([0, 1, 2] : List Nat) →
        (ps2.getD j default).command_pipe =
          (([⟨[], [PyVal.atom 10]⟩, ⟨[], [PyVal.atom 20]⟩,
             ⟨[], [PyVal.atom 30]⟩] : List PoolProducer).getD j
            default).command_pipe)) ∧
     (∃ ps2 : List PoolProducer,
      SimulationPool.p2p_call
          ⟨[⟨[], [PyVal.atom 10]⟩, ⟨[], [PyVal.atom 20]⟩, ⟨[], [PyVal.atom 30]⟩],
           [0, 1, 2], true⟩ true
          [PyVal.vlist [PyVal.atom 1, PyVal.atom 2, PyVal.atom 3],
           PyVal.vlist [PyVal.atom 4, PyVal.atom 5, PyVal.atom 6]] [] =
        (⟨ps2, [0, 1, 2], true⟩,
         PoolCallResult.retList (([0, 1, 2] : List Nat).map (headResult
           [⟨[], [PyVal.atom 10]⟩, ⟨[], [PyVal.atom 20]⟩, ⟨[], [PyVal.atom 30]⟩]))) ∧
      (∀ (k : Nat) (hk : k < ([0, 1, 2] : List Nat).length),
        (ps2.getD (([0, 1, 2] : List Nat).get ⟨k, hk⟩) default).command_pipe =
          (([⟨[], [PyVal.atom 10]⟩, ⟨[], [PyVal.atom 20]⟩,
             ⟨[], [PyVal.atom 30]⟩] : List PoolProducer).getD
            (([0, 1, 2] : List Nat).get ⟨k, hk⟩) default).command_pipe ++
            [([PyVal.vlist [PyVal.atom 1, PyVal.atom 2, PyVal.atom 3],
               PyVal.vlist [PyVal.atom 4, PyVal.atom 5, PyVal.atom 6]].map
                (fun a => a.getItem k),
              ([] : List (String × PyVal)).map
                (fun kv => (kv.1, kv.2.getItem k)))]) ∧
      (∀ j : Nat, j ∉ ([0, 1, 2] : List Nat) →
        (ps2.getD j default).command_pipe =
          (([⟨[], [PyVal.atom 10]⟩, ⟨[], [PyVal.atom 20]⟩,
             ⟨[], [PyVal.atom 30]⟩] : List PoolProducer).getD j
            default).command_pipe))) :=
  ⟨⟨by decide, by decide⟩,
   c6_pool_fanout
     [⟨[], [PyVal.atom 10]⟩, ⟨[], [PyVal.atom 20]⟩, ⟨[], [PyVal.atom 30]⟩]
     [0, 1, 2]
     [PyVal.vlist [PyVal.atom 1, PyVal.atom 2, PyVal.atom 3],
      PyVal.vlist [PyVal.atom 4, PyVal.atom 5, PyVal.atom 6]] []
     (by decide) (by decide)⟩
